import Mathlib

/-!
Verification of the mcp-proxy aggregation proxy.

Shallow embedding of the Go sources of the repository: the
auth / logger / recovery middleware chain, the config default-inheritance
pass, the per-upstream proxy unit (client registration, cursor-paginated
catalog draining, tool filtering), the client manager's concurrent
StartAll / StopAll, the application run pipeline, and the route-prefix
derivation.

Go strings are modelled as lists of characters (`Str`), with the Go
standard-library operations the sources use re-implemented structurally
so that every definition evaluates inside the kernel.
-/

namespace MCPProxy

/-! ### Strings and the Go string primitives used by the sources -/

/-- A Go string, as a list of characters. -/
abbrev Str := List Char

/-- Embed a Lean string literal as a `Str`. -/
def str (s : String) : Str := s.data

/-- Boolean prefix test on character lists (Go `strings.HasPrefix(s, p)`
is `isPre p s`). -/
def isPre : Str → Str → Bool
  | [], _ => true
  | _ :: _, [] => false
  | p :: ps, c :: cs => p = c && isPre ps cs

/-- Go `strings.HasPrefix(s, p)`. -/
def goHasPre (s p : Str) : Bool :=
  isPre p s

/-- Go `strings.HasSuffix(s, p)`. -/
def goHasSuf (s p : Str) : Bool :=
  isPre p.reverse s.reverse

/-- Go `strings.TrimPrefix(s, p)`: drop `p` from the front of `s` when it
is a prefix, otherwise return `s` unchanged. -/
def goTrimPre (s p : Str) : Str :=
  if isPre p s then s.drop p.length else s

/-- ASCII whitespace (the whitespace characters relevant to HTTP header
values; Go `unicode.IsSpace` extends this to Unicode spaces). -/
def isWhite (c : Char) : Bool :=
  c = ' ' || c = '\t' || c = '\n' || c = '\r'

/-- Go `strings.TrimSpace`. -/
def goTrimSpace (s : Str) : Str :=
  ((s.dropWhile isWhite).reverse.dropWhile isWhite).reverse

/-- Lower-case one ASCII character, as Go `strings.ToLower` does for the
ASCII range (filter modes are plain ASCII identifiers). -/
def lowerChar (c : Char) : Char :=
  if 65 ≤ c.toNat ∧ c.toNat ≤ 90 then Char.ofNat (c.toNat + 32) else c

/-- Go `strings.ToLower`. -/
def goToLower (s : Str) : Str :=
  s.map lowerChar

/-! ### Config data model (`internal/interfaces/interfaces.go`)

Go pointers and nilable slices are modelled with `Option`: a Go `nil`
is `none`. -/

/-- `ToolFilterConfig`: mode string plus tool-name list (the Go field
`List` is renamed `ListNames`; `List` is reserved in Lean). -/
structure ToolFilterConfig where
  Mode : Str := []
  ListNames : List Str := []
  deriving Repr, DecidableEq

/-- `OptionsConfig`: every field is optional. -/
structure OptionsConfig where
  PanicIfInvalid : Option Bool := none
  LogEnabled : Option Bool := none
  AuthTokens : Option (List Str) := none
  ToolFilter : Option ToolFilterConfig := none
  deriving Repr, DecidableEq

/-- `ServerConfig` (the fields the verified components read). -/
structure ServerConfig where
  Transport : Str := []
  Command : Str := []
  URL : Str := []
  Options : Option OptionsConfig := none
  deriving Repr, DecidableEq

/-- `ProxyConfig` (the fields the verified components read; the Go field
`Type` is renamed `TypeStr`; `Type` is reserved in Lean). -/
structure ProxyConfig where
  BaseURL : Str := []
  Addr : Str := []
  Name : Str := []
  Version : Str := []
  TypeStr : Str := []
  Options : Option OptionsConfig := none
  deriving Repr, DecidableEq

/-- `Config`: proxy settings plus the named upstream servers.  The Go
map `map[string]ServerConfig` is modelled as an association list. -/
structure Config where
  Proxy : ProxyConfig := {}
  Servers : List (Str × ServerConfig) := []
  deriving Repr, DecidableEq

/-! ### Config defaults (`internal/config/provider.go`) -/

/-- `Provider.inheritProxyDefaults`: copy `AuthTokens`, `PanicIfInvalid`
and `LogEnabled` from the proxy options onto the server options when the
server left them unset.  (These three fields are the only ones copied.) -/
def inheritProxyDefaults (serverOptions proxyOptions : OptionsConfig) : OptionsConfig :=
  let s :=
    if serverOptions.AuthTokens = none then
      { serverOptions with AuthTokens := proxyOptions.AuthTokens }
    else serverOptions
  let s :=
    if s.PanicIfInvalid = none then
      { s with PanicIfInvalid := proxyOptions.PanicIfInvalid }
    else s
  if s.LogEnabled = none then
    { s with LogEnabled := proxyOptions.LogEnabled }
  else s

/-- `Provider.detectTransportType`. -/
def detectTransportType (config : ServerConfig) : Str :=
  if config.Command ≠ [] then str "stdio"
  else if config.URL ≠ [] then
    if config.Transport = str "streamable-http" then str "streamable-http"
    else str "sse"
  else str "stdio"

/-- The per-server body of `Provider.setDefaults`: default the server's
options, inherit the proxy defaults, auto-detect the transport type. -/
def setDefaultsServer (proxyOptions : Option OptionsConfig) (sc : ServerConfig) : ServerConfig :=
  let sc := if sc.Options = none then { sc with Options := some {} } else sc
  let sc := { sc with
    Options := some (inheritProxyDefaults (sc.Options.getD {}) (proxyOptions.getD {})) }
  if sc.Transport = [] then { sc with Transport := detectTransportType sc } else sc

/-- `Provider.setDefaults`: default the proxy transport type and options,
then apply the per-server default pass to every server. -/
def setDefaults (config : Config) : Config :=
  let proxy :=
    if config.Proxy.TypeStr = [] then { config.Proxy with TypeStr := str "sse" }
    else config.Proxy
  let proxy :=
    if proxy.Options = none then { proxy with Options := some {} }
    else proxy
  { Proxy := proxy,
    Servers := config.Servers.map (fun nc => (nc.1, setDefaultsServer proxy.Options nc.2)) }

/-! ### Auth middleware (`internal/middleware/auth/auth.go`, `Middleware.Handle`)

The wrapped handler either calls the downstream `next.ServeHTTP` or
writes `401 Unauthorized`.  We model it as a Boolean: `true` means the
downstream handler is invoked, `false` means the request is rejected
with an unauthorized response.  A missing `Authorization` header is the
empty string, exactly what Go's `r.Header.Get` returns. -/

def authHandle (tokens : List Str) (authHeader : Str) : Bool :=
  if tokens.length = 0 then
    true
  else
    let token := goTrimSpace (goTrimPre authHeader (str "Bearer "))
    if token = [] then false
    else tokens.contains token

/-! ### Middleware chain construction (`internal/app/app.go`, `createMiddlewares`) -/

/-- The three middleware kinds of the repository. -/
inductive MiddlewareKind where
  | recovery
  | logger
  | auth
  deriving Repr, DecidableEq

/-- The auth tokens of a server config, as the middleware builder sees
them: absent options or a nil slice give the empty list. -/
def configAuthTokens (config : ServerConfig) : List Str :=
  match config.Options with
  | some o => o.AuthTokens.getD []
  | none => []

/-- `Application.createMiddlewares`: recovery always; logger only when
`LogEnabled` is set and true; auth only when at least one token is
configured (a nil `AuthTokens` slice has length 0). -/
def createMiddlewares (config : ServerConfig) : List MiddlewareKind :=
  let ms : List MiddlewareKind := [MiddlewareKind.recovery]
  let ms := ms ++
    (match config.Options with
     | some o =>
       match o.LogEnabled with
       | some true => [MiddlewareKind.logger]
       | _ => []
     | none => [])
  ms ++ (if (configAuthTokens config).length > 0 then [MiddlewareKind.auth] else [])

/-! ### Tool filter (`internal/server/proxy.go`, `createToolFilter`) -/

/-- `ProxyServer.createToolFilter`: pass-all unless the options carry a
tool filter with a non-empty list; then the mode string is lowercased
and compared against `allow` / `block`; an unknown (lowercased) mode
leaves the pass-all default in place. -/
def createToolFilter (opts : Option OptionsConfig) : Str → Bool :=
  let pass : Str → Bool := fun _ => true
  match opts with
  | none => pass
  | some o =>
    match o.ToolFilter with
    | none => pass
    | some tf =>
      if tf.ListNames.length > 0 then
        let mode := goToLower tf.Mode
        if mode = str "allow" then fun toolName => tf.ListNames.contains toolName
        else if mode = str "block" then fun toolName => !(tf.ListNames.contains toolName)
        else pass
      else pass

/-- The tool names that survive the filter, in upstream order. -/
def filterTools (opts : Option OptionsConfig) (tools : List Str) : List Str :=
  tools.filter (createToolFilter opts)

/-! ### Cursor-paginated catalog draining (`internal/server/proxy.go`,
`addTools` / `addPrompts` / `addResources` / `addResourceTemplates`)

All four loops have the same shape: fetch a page; on error return it;
if the page has no items stop; register the (possibly filtered) items;
if the next-cursor is empty stop; otherwise fetch again with that
cursor.  We model the upstream's responses as the transcript of pages it
serves, in fetch order (cursors between consecutive transcript entries
are assumed to match, which is how a real paginated catalog answers).
The result is (number of fetch calls, registered names, fetch error). -/

/-- One page of a paginated catalog listing. -/
structure CatalogPage where
  items : List Str := []
  nextCursor : Str := []
  deriving Repr, DecidableEq

def drainCatalog (f : Str → Bool) : List (Except Str CatalogPage) → Nat × List Str × Option Str
  | [] => (0, [], none)
  | Except.error e :: _ => (1, [], some e)
  | Except.ok p :: rest =>
    if p.items.length = 0 then (1, [], none)
    else if p.nextCursor = [] then (1, p.items.filter f, none)
    else
      let r := drainCatalog f rest
      (r.1 + 1, p.items.filter f ++ r.2.1, r.2.2)

/-- A well-formed pagination transcript: at least one page, every page
before the last has items and a non-empty next-cursor, and the last page
terminates the loop (no items or an empty cursor). -/
def wfPages : List CatalogPage → Prop
  | [] => False
  | [p] => p.items = [] ∨ p.nextCursor = []
  | p :: q :: rest => p.items ≠ [] ∧ p.nextCursor ≠ [] ∧ wfPages (q :: rest)

/-! ### The proxy unit (`internal/server/proxy.go`, `ProxyServer`) -/

/-- An upstream client as the proxy unit sees it: an identity plus the
pagination transcripts of its four catalogs. -/
structure MCPClientModel where
  id : Nat
  toolPages : List (Except Str CatalogPage) := []
  promptPages : List (Except Str CatalogPage) := []
  resourcePages : List (Except Str CatalogPage) := []
  templatePages : List (Except Str CatalogPage) := []
  deriving Repr

/-- `ProxyServer`: name, per-upstream config, the bound client (a Go nil
pointer is `none`), and the names registered into the local MCP server. -/
structure ProxyServer where
  name : Str := []
  serverConfig : ServerConfig := {}
  client : Option Nat := none
  registeredTools : List Str := []
  registeredPrompts : List Str := []
  registeredResources : List Str := []
  registeredTemplates : List Str := []
  deriving Repr, DecidableEq

/-- `ProxyServer.addClientResources`: tools first (an error is returned,
wrapped), then prompts, resources and resource templates, whose errors
are only logged; names registered before a mid-pagination error stay
registered, as the Go `AddTool` / `AddPrompt` calls have already run. -/
def addClientResources (ps : ProxyServer) (c : MCPClientModel) : ProxyServer × Option Str :=
  let rt := drainCatalog (createToolFilter ps.serverConfig.Options) c.toolPages
  let ps := { ps with registeredTools := ps.registeredTools ++ rt.2.1 }
  match rt.2.2 with
  | some e => (ps, some (str "failed to add tools: " ++ e))
  | none =>
    let rp := drainCatalog (fun _ => true) c.promptPages
    let ps := { ps with registeredPrompts := ps.registeredPrompts ++ rp.2.1 }
    let rr := drainCatalog (fun _ => true) c.resourcePages
    let ps := { ps with registeredResources := ps.registeredResources ++ rr.2.1 }
    let rk := drainCatalog (fun _ => true) c.templatePages
    ({ ps with registeredTemplates := ps.registeredTemplates ++ rk.2.1 }, none)

/-- `ProxyServer.RegisterClient`: reject when a client is already bound;
otherwise set the binding, then populate the catalogs.  The binding is
set before population and is not cleared when population fails. -/
def RegisterClient (ps : ProxyServer) (c : MCPClientModel) : ProxyServer × Option Str :=
  if ps.client.isSome then
    (ps, some (str "client already registered for server " ++ ps.name))
  else
    let ps1 := { ps with client := some c.id }
    let r := addClientResources ps1 c
    match r.2 with
    | some e => (r.1, some (str "failed to add client resources: " ++ e))
    | none => (r.1, none)

/-- `ProxyServer.UnregisterClient`: reject when nothing is bound,
otherwise clear the binding (registrations are left in place). -/
def UnregisterClient (ps : ProxyServer) : ProxyServer × Option Str :=
  match ps.client with
  | none => (ps, some (str "no client registered for server " ++ ps.name))
  | some _ => ({ ps with client := none }, none)

/-! ### Client manager (`internal/client/manager.go`)

`StartAll` launches one goroutine per client; every goroutine runs to
completion regardless of the others' failures; errors are sent into a
channel whose capacity equals the number of clients, so none is dropped;
after the wait, the first collected error (channel order = completion
order) is returned, or nil when none was collected.  `StopAll` has the
same shape but logs its collected errors and always returns nil.

The nondeterministic completion order is an explicit parameter: any
permutation of the client set. -/

/-- One managed upstream connection.  `connectErr` / `closeErr` are the
outcomes the environment would produce for a connect attempt / a close;
a failed connect leaves `connected` false (the stdio / sse / streamable
clients all reset the flag when initialization fails). -/
structure ClientState where
  name : Str := []
  connected : Bool := false
  connectErr : Option Str := none
  closeErr : Option Str := none
  deriving Repr, DecidableEq

/-- `Connect` on a single client: a no-op when already connected;
otherwise the connection succeeds or fails per `connectErr`. -/
def connectClient (c : ClientState) : ClientState × Option Str :=
  if c.connected then (c, none)
  else
    match c.connectErr with
    | none => ({ c with connected := true }, none)
    | some e => (c, some e)

/-- `Disconnect` on a single client: a no-op when not connected;
otherwise the flag is cleared unconditionally and the close outcome is
returned. -/
def disconnectClient (c : ClientState) : ClientState × Option Str :=
  if c.connected then ({ c with connected := false }, c.closeErr)
  else (c, none)

/-- `Manager.StartAll`.  `order` is the completion order of the
goroutines (a permutation of `clients`). -/
def StartAll (clients order : List ClientState) : List ClientState × Option Str :=
  if clients.length = 0 then (clients, none)
  else
    let newStates := clients.map (fun c => (connectClient c).1)
    let errs := order.filterMap (fun c =>
      ((connectClient c).2).map (fun e => str "failed to start client " ++ c.name ++ str ": " ++ e))
    (newStates, errs.head?)

/-- `Manager.StopAll`: disconnect everything, collect the failures into
the log, return nil.  The middle component is the list of logged stop
errors. -/
def StopAll (clients : List ClientState) : List ClientState × List Str × Option Str :=
  if clients.length = 0 then (clients, [], none)
  else
    let stopped := clients.map (fun c => (disconnectClient c).1)
    let stopErrors := clients.filterMap (fun c =>
      ((disconnectClient c).2).map (fun e => str "failed to stop client " ++ c.name ++ str ": " ++ e))
    (stopped, stopErrors, none)

/-! ### The run pipeline (`internal/app/app.go`, `Application.Run`)

`Run` loads and validates the config, creates and adds every client,
calls `StartAll` and returns its error when non-nil, builds the HTTP
server (one route per upstream) and serves.  The outcomes of the
external effects are explicit parameters; the phase list records which
lifecycle phases the run entered, in order. -/

inductive Phase where
  | loading
  | connecting
  | buildingRoutes
  | serving
  deriving Repr, DecidableEq

def runPhases (_config : Config)
    (loadErr validateErr createErr connectErr buildErr : Option Str) :
    List Phase × Option Str :=
  match loadErr with
  | some e => ([Phase.loading], some e)
  | none =>
  match validateErr with
  | some e => ([Phase.loading], some e)
  | none =>
  match createErr with
  | some e => ([Phase.loading], some e)
  | none =>
  match connectErr with
  | some e => ([Phase.loading, Phase.connecting], some e)
  | none =>
  match buildErr with
  | some e => ([Phase.loading, Phase.connecting, Phase.buildingRoutes], some e)
  | none => ([Phase.loading, Phase.connecting, Phase.buildingRoutes, Phase.serving], none)

/-! ### Route prefix derivation (`internal/app/app.go`, `createHTTPServer`)

The route key is `path.Join(baseURL.Path, name)` forced to start and end
with a slash.  Go `path.Join` joins the non-empty elements with a slash
and applies `path.Clean` (collapse repeated slashes, resolve dot and
dot-dot segments, strip the trailing slash). -/

/-- Split on slashes, keeping empty segments. -/
def splitSlashAux : Str → Str → List Str
  | [], acc => [acc.reverse]
  | c :: cs, acc =>
    if c = '/' then acc.reverse :: splitSlashAux cs []
    else splitSlashAux cs (c :: acc)

def splitSlash (s : Str) : List Str :=
  splitSlashAux s []

/-- The segment-stack pass of Go `path.Clean`. -/
def cleanSegs (rooted : Bool) (comps : List Str) : List Str :=
  (comps.foldl (fun acc c =>
    if c = [] ∨ c = ['.'] then acc
    else if c = ['.', '.'] then
      match acc with
      | [] => if rooted then [] else [['.', '.']]
      | x :: rest => if x = ['.', '.'] then c :: acc else rest
    else c :: acc) []).reverse

/-- Join segments with slashes. -/
def joinSlash : List Str → Str
  | [] => []
  | [s] => s
  | s :: rest => s ++ '/' :: joinSlash rest

/-- Go `path.Clean`. -/
def goPathClean (p : Str) : Str :=
  if p = [] then ['.']
  else
    let rooted := goHasPre p (str "/")
    let out := joinSlash (cleanSegs rooted (splitSlash p))
    if rooted then '/' :: out
    else if out = [] then ['.'] else out

/-- Go `path.Join` on two elements. -/
def goPathJoin (a b : Str) : Str :=
  if a = [] ∧ b = [] then []
  else if a = [] then goPathClean b
  else if b = [] then goPathClean a
  else goPathClean (a ++ '/' :: b)

/-- The first normalization step of `createHTTPServer`: prepend a slash
unless the route already starts with one. -/
def ensureLeading (r : Str) : Str :=
  if goHasPre r (str "/") then r else '/' :: r

/-- The second normalization step of `createHTTPServer`: append a slash
unless the route already ends with one. -/
def ensureTrailing (r : Str) : Str :=
  if goHasSuf r (str "/") then r else r ++ ['/']

/-- The request-route key derived in `createHTTPServer`: join the base
URL path with the upstream name, then force a leading and a trailing
slash. -/
def mcpRoute (basePath name : Str) : Str :=
  ensureTrailing (ensureLeading (goPathJoin basePath name))

/-! ## Helper lemmas -/

theorem contains_iff_mem (l : List Str) (a : Str) : l.contains a = true ↔ a ∈ l := by
  simp [List.contains, List.elem_iff]

theorem isPre_append (p s t : Str) (h : isPre p s = true) : isPre p (s ++ t) = true := by
  induction p generalizing s with
  | nil => simp [isPre]
  | cons c cs ih =>
    cases s with
    | nil => simp [isPre] at h
    | cons d ds =>
      simp only [isPre, Bool.and_eq_true, decide_eq_true_eq] at h
      simp only [List.cons_append, isPre, Bool.and_eq_true, decide_eq_true_eq]
      exact ⟨h.1, ih ds h.2⟩

theorem disconnectClient_connected (c : ClientState) :
    (disconnectClient c).1.connected = false := by
  by_cases h : c.connected <;> simp [disconnectClient, h]

theorem setDefaultsServer_Options (popts : Option OptionsConfig) (sc : ServerConfig) :
    (setDefaultsServer popts sc).Options =
      some (inheritProxyDefaults (sc.Options.getD {}) (popts.getD {})) := by
  unfold setDefaultsServer
  rcases hsc : sc.Options with _ | o <;> simp_all <;> split <;> rfl

/-! ## Claims -/

/-- C1 counterexample: with the configured token list `[secret]`, a
request whose `Authorization` header is the bare string `secret` — no
`Bearer` scheme at all — is passed to the downstream handler, because
`strings.TrimPrefix` leaves a non-matching header unchanged.  The claim
requires any request without a well-formed `Bearer` scheme to be
rejected. -/
theorem C1_counterexample :
    goHasPre (str "secret") (str "Bearer ") = false ∧
    authHandle [str "secret"] (str "secret") = true := by
  decide

/-- C1 amended: with a non-empty configured token list, the auth
middleware invokes the downstream handler if and only if the header
value, after stripping an OPTIONAL `Bearer` prefix and trimming
surrounding whitespace, is non-empty and equals one configured token
(so a bare matching token without the scheme also passes); in every
other case it rejects without invoking the downstream handler.  With
zero configured tokens the middleware is not installed in the chain. -/
theorem C1_amended :
    (∀ (tokens : List Str) (header : Str), tokens ≠ [] →
      (authHandle tokens header = true ↔
        goTrimSpace (goTrimPre header (str "Bearer ")) ≠ [] ∧
          goTrimSpace (goTrimPre header (str "Bearer ")) ∈ tokens)) ∧
    (∀ config : ServerConfig, configAuthTokens config = [] →
      MiddlewareKind.auth ∉ createMiddlewares config) := by
  constructor
  · intro tokens header h
    have hlen : ¬ tokens.length = 0 := by simpa [List.length_eq_zero] using h
    unfold authHandle
    rw [if_neg hlen]
    by_cases ht : goTrimSpace (goTrimPre header (str "Bearer ")) = []
    · simp [ht]
    · simp [ht, contains_iff_mem]
  · intro config h
    unfold createMiddlewares
    rw [h]
    rcases hopt : config.Options with _ | o
    · simp
    · rcases hle : o.LogEnabled with _ | b
      · simp [hle]
      · cases b <;> simp [hle]

/-- C1 witness: a well-formed `Bearer secret` header with token list
`[secret]` satisfies the amended pass condition, and a config with no
options installs no auth middleware. -/
theorem C1_witness :
    (authHandle [str "secret"] (str "Bearer secret") = true ↔
      goTrimSpace (goTrimPre (str "Bearer secret") (str "Bearer ")) ≠ [] ∧
        goTrimSpace (goTrimPre (str "Bearer secret") (str "Bearer ")) ∈ [str "secret"]) ∧
    MiddlewareKind.auth ∉ createMiddlewares {} :=
  ⟨C1_amended.1 [str "secret"] (str "Bearer secret") (by decide),
   C1_amended.2 {} (by rfl)⟩

/-- C2 counterexample: the mode string `ALLOW` is neither `allow` nor
`block`, yet the filter is NOT skipped: the code lowercases the mode
first, so `ALLOW` behaves as allow mode and the result is T ∩ L, not T.
(The config validator lowercases too, so this mode survives
validation.) -/
theorem C2_counterexample :
    str "ALLOW" ≠ str "allow" ∧ str "ALLOW" ≠ str "block" ∧
    filterTools (some { ToolFilter := some { Mode := str "ALLOW", ListNames := [str "a"] } })
      [str "a", str "b"] = [str "a"] ∧
    [str "a"] ≠ [str "a", str "b"] := by
  decide

/-- C2 amended: the registered tool set is T ∩ L when the LOWERCASED
mode is `allow`, T − L when it is `block`, T with no filter or an empty
L, and T when the lowercased mode is neither `allow` nor `block` (mode
comparison is case-insensitive; only then is the filter skipped, fail
open).  The last clause ties the filter to what `RegisterClient`
actually registers for a one-page catalog. -/
theorem C2_amended :
    (∀ T : List Str, filterTools none T = T) ∧
    (∀ (o : OptionsConfig) (T : List Str), o.ToolFilter = none →
      filterTools (some o) T = T) ∧
    (∀ (o : OptionsConfig) (mode : Str) (T : List Str),
      o.ToolFilter = some { Mode := mode, ListNames := [] } →
      filterTools (some o) T = T) ∧
    (∀ (o : OptionsConfig) (mode : Str) (L T : List Str),
      o.ToolFilter = some { Mode := mode, ListNames := L } → L ≠ [] →
      goToLower mode = str "allow" →
      filterTools (some o) T = T.filter (fun t => L.contains t)) ∧
    (∀ (o : OptionsConfig) (mode : Str) (L T : List Str),
      o.ToolFilter = some { Mode := mode, ListNames := L } → L ≠ [] →
      goToLower mode = str "block" →
      filterTools (some o) T = T.filter (fun t => !(L.contains t))) ∧
    (∀ (o : OptionsConfig) (mode : Str) (L T : List Str),
      o.ToolFilter = some { Mode := mode, ListNames := L } →
      goToLower mode ≠ str "allow" → goToLower mode ≠ str "block" →
      filterTools (some o) T = T) ∧
    (∀ (ps : ProxyServer) (c : MCPClientModel) (T : List Str),
      ps.client = none → ps.registeredTools = [] →
      c.toolPages = [Except.ok { items := T, nextCursor := [] }] →
      (RegisterClient ps c).1.registeredTools = filterTools ps.serverConfig.Options T) := by
  refine ⟨?_, ?_, ?_, ?_, ?_, ?_, ?_⟩
  · intro T; simp [filterTools, createToolFilter, List.filter_true]
  · intro o T h; simp [filterTools, createToolFilter, h, List.filter_true]
  · intro o mode T h; simp [filterTools, createToolFilter, h, List.filter_true]
  · intro o mode L T h hL hm
    have hlen : 0 < L.length := List.length_pos.mpr hL
    simp [filterTools, createToolFilter, h, hlen, hm]
  · intro o mode L T h hL hm
    have hlen : 0 < L.length := List.length_pos.mpr hL
    have hne : ¬ (str "block" = str "allow") := by decide
    simp [filterTools, createToolFilter, h, hlen, hm, hne]
  · intro o mode L T h hma hmb
    by_cases hL : L = []
    · simp [filterTools, createToolFilter, h, hL, List.filter_true]
    · have hlen : 0 < L.length := List.length_pos.mpr hL
      simp [filterTools, createToolFilter, h, hlen, hma, hmb, List.filter_true]
  · intro ps c T h hreg hpages
    have hns : ¬ ps.client.isSome = true := by simp [h]
    cases T with
    | nil =>
      simp [RegisterClient, hns, addClientResources, hpages, drainCatalog, hreg,
        filterTools]
    | cons t ts =>
      simp [RegisterClient, hns, addClientResources, hpages, drainCatalog, hreg,
        filterTools]

/-- C2 witness: concrete instantiations of every clause of the amended
filter property. -/
theorem C2_witness :
    filterTools (some { ToolFilter := some { Mode := str "allow", ListNames := [str "a"] } })
      [str "a", str "b"] = [str "a", str "b"].filter (fun t => [str "a"].contains t) ∧
    filterTools (some { ToolFilter := some { Mode := str "Block", ListNames := [str "a"] } })
      [str "a", str "b"] = [str "a", str "b"].filter (fun t => !([str "a"].contains t)) ∧
    filterTools (some { ToolFilter := some { Mode := str "weird", ListNames := [str "a"] } })
      [str "a", str "b"] = [str "a", str "b"] ∧
    filterTools (some { ToolFilter := some { Mode := str "allow", ListNames := [] } })
      [str "a"] = [str "a"] ∧
    filterTools (some { ToolFilter := none }) [str "a"] = [str "a"] ∧
    (RegisterClient { name := str "s" }
        { id := 1, toolPages := [Except.ok { items := [str "a"], nextCursor := [] }] }
      ).1.registeredTools = filterTools (none : Option OptionsConfig) [str "a"] :=
  ⟨C2_amended.2.2.2.1 _ (str "allow") [str "a"] [str "a", str "b"] rfl (by decide) (by decide),
   C2_amended.2.2.2.2.1 _ (str "Block") [str "a"] [str "a", str "b"] rfl (by decide) (by decide),
   C2_amended.2.2.2.2.2.1 _ (str "weird") [str "a"] [str "a", str "b"] rfl (by decide) (by decide),
   C2_amended.2.2.1 _ (str "allow") [str "a"] rfl,
   C2_amended.2.1 { ToolFilter := none } [str "a"] rfl,
   C2_amended.2.2.2.2.2.2 { name := str "s" }
     { id := 1, toolPages := [Except.ok { items := [str "a"], nextCursor := [] }] }
     [str "a"] rfl rfl rfl⟩

/-- Draining a well-formed pagination transcript with the pass-all
filter makes exactly one fetch per page and registers every item of
every page, in order. -/
theorem drain_wf : ∀ pages : List CatalogPage, wfPages pages →
    drainCatalog (fun _ => true) (pages.map Except.ok) =
      (pages.length, (pages.map CatalogPage.items).flatten, none)
  | [], h => absurd h (by simp [wfPages])
  | [p], _h => by
    by_cases hp : p.items = []
    · simp [drainCatalog, hp]
    · rcases _h with h' | h'
      · exact absurd h' hp
      · have hl : ¬ p.items.length = 0 := by simpa [List.length_eq_zero] using hp
        simp [drainCatalog, hl, h', List.filter_true]
  | p :: q :: rest, h => by
    obtain ⟨h1, h2, h3⟩ := h
    have ih := drain_wf (q :: rest) h3
    have hl : ¬ p.items.length = 0 := by simpa [List.length_eq_zero] using h1
    rw [List.map_cons, drainCatalog, if_neg hl, if_neg h2]
    simp only [ih, List.filter_true]
    simp

/-- The four-page transcript of the pagination claim: pages of sizes
2, 2, 1 and 0 with matching non-empty cursors between consecutive
pages. -/
def c3Pages : List (Except Str CatalogPage) :=
  [Except.ok { items := [str "t1", str "t2"], nextCursor := str "c1" },
   Except.ok { items := [str "t3", str "t4"], nextCursor := str "c2" },
   Except.ok { items := [str "t5"], nextCursor := str "c3" },
   Except.ok { items := [], nextCursor := [] }]

/-- C3 counterexample: on the [2,2,1,0] transcript the loop issues 4
fetch calls, not 3 — the third page returns a non-empty cursor, so the
loop fetches the fourth (empty) page, and that fetch is a list call
like any other. -/
theorem C3_counterexample :
    (drainCatalog (fun _ => true) c3Pages).1 = 4 ∧
    ¬ (drainCatalog (fun _ => true) c3Pages).1 = 3 := by
  decide

/-- C3 amended: on the [2,2,1,0] transcript the populate loop issues
exactly 4 fetch calls (the 4th, empty page, terminates the loop) and
registers exactly 5 items; in general, on every well-formed finite
transcript the loop makes one fetch per page and registers every item
of every non-empty page exactly once, in order. -/
theorem C3_amended :
    (drainCatalog (fun _ => true) c3Pages).1 = 4 ∧
    (drainCatalog (fun _ => true) c3Pages).2.1 =
      [str "t1", str "t2", str "t3", str "t4", str "t5"] ∧
    (∀ pages : List CatalogPage, wfPages pages →
      drainCatalog (fun _ => true) (pages.map Except.ok) =
        (pages.length, (pages.map CatalogPage.items).flatten, none)) :=
  ⟨by decide, by decide, drain_wf⟩

/-- C3 witness: the general draining clause at a concrete one-page
transcript. -/
theorem C3_witness :
    drainCatalog (fun _ => true)
        (([{ items := [str "a"], nextCursor := [] }] : List CatalogPage).map Except.ok) =
      (1, [str "a"], none) :=
  C3_amended.2.2 [{ items := [str "a"], nextCursor := [] }] (Or.inr rfl)

/-- C4 counterexample: a proxy-level toolFilter is NOT copied onto an
upstream whose options leave toolFilter unset — `inheritProxyDefaults`
only copies authTokens, panicIfInvalid and logEnabled. -/
theorem C4_counterexample :
    (inheritProxyDefaults {}
        { ToolFilter := some { Mode := str "allow", ListNames := [str "a"] } }).ToolFilter
      = none ∧
    (none : Option ToolFilterConfig) ≠
      some { Mode := str "allow", ListNames := [str "a"] } := by
  decide

/-- C4 amended: at load time each upstream's unset panicIfInvalid,
logEnabled and authTokens fields are filled from the proxy options, and
set fields are kept; toolFilter is NOT inherited — the effective
toolFilter is always the upstream's own.  `setDefaults` applies exactly
this merge to every configured server. -/
theorem C4_amended :
    (∀ s p : OptionsConfig,
      (inheritProxyDefaults s p).AuthTokens =
        (if s.AuthTokens = none then p.AuthTokens else s.AuthTokens) ∧
      (inheritProxyDefaults s p).PanicIfInvalid =
        (if s.PanicIfInvalid = none then p.PanicIfInvalid else s.PanicIfInvalid) ∧
      (inheritProxyDefaults s p).LogEnabled =
        (if s.LogEnabled = none then p.LogEnabled else s.LogEnabled) ∧
      (inheritProxyDefaults s p).ToolFilter = s.ToolFilter) ∧
    (∀ (config : Config) (n : Str) (sc : ServerConfig), (n, sc) ∈ config.Servers →
      ∃ sc', (n, sc') ∈ (setDefaults config).Servers ∧
        sc'.Options =
          some (inheritProxyDefaults (sc.Options.getD {}) (config.Proxy.Options.getD {}))) := by
  constructor
  · intro s p
    rcases s with ⟨spi, sle, sat, stf⟩
    rcases spi with _ | x <;> rcases sle with _ | y <;> rcases sat with _ | z <;>
      simp [inheritProxyDefaults]
  · intro config n sc h
    have hserv : (setDefaults config).Servers =
        config.Servers.map (fun nc =>
          (nc.1, setDefaultsServer (setDefaults config).Proxy.Options nc.2)) := by
      simp only [setDefaults]
    have hpo : (setDefaults config).Proxy.Options.getD {} = config.Proxy.Options.getD {} := by
      simp only [setDefaults]
      rcases hob : config.Proxy.Options with _ | o <;> split <;> simp [hob]
    refine ⟨setDefaultsServer (setDefaults config).Proxy.Options sc, ?_, ?_⟩
    · rw [hserv]
      exact List.mem_map_of_mem _ h
    · rw [← hpo]
      exact setDefaultsServer_Options _ sc

/-- C4 witness: the merge at concrete options (upstream sets logEnabled,
proxy sets authTokens and a toolFilter), and setDefaults on a one-server
config. -/
theorem C4_witness :
    ((inheritProxyDefaults { LogEnabled := some false }
        { AuthTokens := some [str "t"],
          ToolFilter := some { Mode := str "allow", ListNames := [str "a"] } }).AuthTokens
      = some [str "t"] ∧
     (inheritProxyDefaults { LogEnabled := some false }
        { AuthTokens := some [str "t"],
          ToolFilter := some { Mode := str "allow", ListNames := [str "a"] } }).PanicIfInvalid
      = none ∧
     (inheritProxyDefaults { LogEnabled := some false }
        { AuthTokens := some [str "t"],
          ToolFilter := some { Mode := str "allow", ListNames := [str "a"] } }).LogEnabled
      = some false ∧
     (inheritProxyDefaults { LogEnabled := some false }
        { AuthTokens := some [str "t"],
          ToolFilter := some { Mode := str "allow", ListNames := [str "a"] } }).ToolFilter
      = none) ∧
    (∃ sc', (str "git", sc') ∈
        (setDefaults { Proxy := { Options := some { AuthTokens := some [str "t"] } },
                       Servers := [(str "git", { Command := str "npx" })] }).Servers ∧
      sc'.Options = some (inheritProxyDefaults {} { AuthTokens := some [str "t"] })) :=
  ⟨C4_amended.1 { LogEnabled := some false }
      { AuthTokens := some [str "t"],
        ToolFilter := some { Mode := str "allow", ListNames := [str "a"] } },
   C4_amended.2 { Proxy := { Options := some { AuthTokens := some [str "t"] } },
                  Servers := [(str "git", { Command := str "npx" })] }
     (str "git") { Command := str "npx" } (by simp)⟩

/-- C5 counterexample: with a connect failure reported by the concurrent
start step, the run never reaches Serving and returns the failure —
there is no configuration input that enables a partial-success startup;
the config argument is not consulted when deciding to abort. -/
theorem C5_counterexample :
    Phase.serving ∉ (runPhases {} none none none (some (str "connect failed")) none).1 ∧
    (runPhases {} none none none (some (str "connect failed")) none).2 =
      some (str "connect failed") ∧
    (runPhases {} none none none (some (str "connect failed")) none).1 =
      [Phase.loading, Phase.connecting] := by
  decide

/-- C5 amended: the failure policy is hard-coded, not configurable.  The
run outcome is independent of the configuration; whenever the concurrent
connect step reports a failure the run aborts with that failure before
building routes and Serving is never reached; Serving is reached exactly
when every stage succeeds. -/
theorem C5_amended :
    (∀ (cfg1 cfg2 : Config) (l v cr ce b : Option Str),
      runPhases cfg1 l v cr ce b = runPhases cfg2 l v cr ce b) ∧
    (∀ (cfg : Config) (e : Str) (b : Option Str),
      runPhases cfg none none none (some e) b = ([Phase.loading, Phase.connecting], some e)) ∧
    (∀ (cfg : Config) (l v cr : Option Str) (e : Str) (b : Option Str),
      Phase.serving ∉ (runPhases cfg l v cr (some e) b).1) ∧
    (∀ (cfg : Config) (l v cr ce b : Option Str),
      Phase.serving ∈ (runPhases cfg l v cr ce b).1 ↔
        l = none ∧ v = none ∧ cr = none ∧ ce = none ∧ b = none) := by
  refine ⟨?_, ?_, ?_, ?_⟩
  · intro cfg1 cfg2 l v cr ce b
    rfl
  · intro cfg e b
    rfl
  · intro cfg l v cr e b
    rcases l with _ | e1 <;> rcases v with _ | e2 <;> rcases cr with _ | e3 <;>
      simp [runPhases]
  · intro cfg l v cr ce b
    rcases l with _ | e1 <;> rcases v with _ | e2 <;> rcases cr with _ | e3 <;>
      rcases ce with _ | e4 <;> rcases b with _ | e5 <;> simp [runPhases]

/-- C6: binding a second client to an already-bound proxy unit always
fails with the already-registered error, and the unit — in particular
the original binding — is left unchanged. -/
theorem C6_alreadyBound :
    ∀ (ps : ProxyServer) (c0 : Nat) (c : MCPClientModel), ps.client = some c0 →
      RegisterClient ps c =
        (ps, some (str "client already registered for server " ++ ps.name)) ∧
      (RegisterClient ps c).1.client = some c0 := by
  intro ps c0 c h
  have hs : ps.client.isSome = true := by simp [h]
  refine ⟨by simp [RegisterClient, hs], by simp [RegisterClient, hs, h]⟩

/-- C6 witness: a unit bound to client 1 rejects a bind of client 2 and
stays bound to client 1. -/
theorem C6_witness :
    RegisterClient { name := str "s", client := some 1 } { id := 2 } =
      ({ name := str "s", client := some 1 },
       some (str "client already registered for server s")) ∧
    (RegisterClient { name := str "s", client := some 1 } { id := 2 }).1.client = some 1 :=
  C6_alreadyBound { name := str "s", client := some 1 } 1 { id := 2 } rfl

/-- C7: the bulk connect attempts every client (the output states are
the per-client connect results, independent of other clients'
failures); the aggregate result is nil exactly when every connect
succeeded, and a non-nil result is one of the collected per-client
failures — the first in completion order. -/
theorem C7_startAll :
    ∀ clients order : List ClientState, order.Perm clients →
      ((StartAll clients order).2 = none ↔ ∀ c ∈ clients, (connectClient c).2 = none) ∧
      (∀ e, (StartAll clients order).2 = some e →
        ∃ c ∈ clients,
          ((connectClient c).2).map
            (fun e0 => str "failed to start client " ++ c.name ++ str ": " ++ e0) = some e) ∧
      (StartAll clients order).1 = clients.map (fun c => (connectClient c).1) := by
  intro clients order hperm
  by_cases hlen : clients.length = 0
  · have hc : clients = [] := List.length_eq_zero.mp hlen
    subst hc
    have ho : order = [] := hperm.eq_nil
    subst ho
    simp [StartAll]
  · have hsa : StartAll clients order =
        (clients.map (fun c => (connectClient c).1),
         (order.filterMap (fun c =>
            ((connectClient c).2).map
              (fun e0 => str "failed to start client " ++ c.name ++ str ": " ++ e0))).head?) := by
      simp [StartAll, hlen]
    rw [hsa]
    refine ⟨?_, ?_, rfl⟩
    · rw [List.head?_eq_none_iff, List.filterMap_eq_nil_iff]
      constructor
      · intro hall c hc
        have := hall c (hperm.mem_iff.mpr hc)
        simpa [Option.map_eq_none'] using this
      · intro hall c hc
        have := hall c (hperm.mem_iff.mp hc)
        simp [Option.map_eq_none', this]
    · intro e he
      have hmem : e ∈ order.filterMap (fun c =>
          ((connectClient c).2).map
            (fun e0 => str "failed to start client " ++ c.name ++ str ": " ++ e0)) := by
        cases herr : order.filterMap (fun c =>
            ((connectClient c).2).map
              (fun e0 => str "failed to start client " ++ c.name ++ str ": " ++ e0)) with
        | nil => rw [herr] at he; simp at he
        | cons x xs =>
          rw [herr] at he
          simp only [List.head?_cons, Option.some.injEq] at he
          rw [← he]
          exact List.mem_cons_self x xs
      obtain ⟨c, hc, hg⟩ := List.mem_filterMap.mp hmem
      exact ⟨c, hperm.mem_iff.mp hc, hg⟩

/-- C7 witness: two clients, one failing; with the failing goroutine
completing first, the aggregate is that failure, it is among the
collected per-client failures, and both clients were attempted. -/
theorem C7_witness :
    ((StartAll [{ name := str "ok" }, { name := str "bad", connectErr := some (str "e") }]
        [{ name := str "bad", connectErr := some (str "e") }, { name := str "ok" }]).2 = none ↔
      ∀ c ∈ [({ name := str "ok" } : ClientState),
             { name := str "bad", connectErr := some (str "e") }],
        (connectClient c).2 = none) ∧
    (∀ e, (StartAll [{ name := str "ok" }, { name := str "bad", connectErr := some (str "e") }]
        [{ name := str "bad", connectErr := some (str "e") }, { name := str "ok" }]).2 = some e →
      ∃ c ∈ [({ name := str "ok" } : ClientState),
             { name := str "bad", connectErr := some (str "e") }],
        ((connectClient c).2).map
          (fun e0 => str "failed to start client " ++ c.name ++ str ": " ++ e0) = some e) ∧
    (StartAll [{ name := str "ok" }, { name := str "bad", connectErr := some (str "e") }]
        [{ name := str "bad", connectErr := some (str "e") }, { name := str "ok" }]).1 =
      [({ name := str "ok" } : ClientState),
       { name := str "bad", connectErr := some (str "e") }].map
        (fun c => (connectClient c).1) :=
  C7_startAll
    [{ name := str "ok" }, { name := str "bad", connectErr := some (str "e") }]
    [{ name := str "bad", connectErr := some (str "e") }, { name := str "ok" }]
    (by decide)

/-- C8: the bulk disconnect disconnects every registered client (the
output states are the per-client disconnect results), always returns
nil, every resulting client is disconnected, and connect-all followed
by disconnect-all leaves every client disconnected whatever the
intermediate failures were. -/
theorem C8_stopAll :
    ∀ clients order : List ClientState,
      (StopAll clients).2.2 = none ∧
      (StopAll clients).1 = clients.map (fun c => (disconnectClient c).1) ∧
      (∀ c ∈ (StopAll clients).1, c.connected = false) ∧
      (∀ c ∈ (StopAll (StartAll clients order).1).1, c.connected = false) := by
  intro clients order
  have hmap : ∀ l : List ClientState, ∀ c ∈ (StopAll l).1, c.connected = false := by
    intro l c hc
    by_cases hlen : l.length = 0
    · have : l = [] := List.length_eq_zero.mp hlen
      subst this
      simp [StopAll] at hc
    · simp only [StopAll, if_neg hlen] at hc
      obtain ⟨a, _ha, rfl⟩ := List.mem_map.mp hc
      exact disconnectClient_connected a
  refine ⟨?_, ?_, hmap clients, hmap _⟩
  · by_cases hlen : clients.length = 0 <;> simp [StopAll, hlen]
  · by_cases hlen : clients.length = 0
    · have : clients = [] := List.length_eq_zero.mp hlen
      subst this
      simp [StopAll]
    · simp [StopAll, hlen]

/-- Normalizing a route always yields a leading slash. -/
theorem ensureLeading_pre (r : Str) : goHasPre (ensureLeading r) (str "/") = true := by
  unfold ensureLeading
  by_cases h : goHasPre r (str "/") = true
  · rw [if_pos h]; exact h
  · rw [if_neg h]
    simp [goHasPre, isPre, str]

/-- Appending the trailing slash keeps the leading slash. -/
theorem ensureTrailing_pre (r : Str) (h : goHasPre r (str "/") = true) :
    goHasPre (ensureTrailing r) (str "/") = true := by
  unfold ensureTrailing
  by_cases hs : goHasSuf r (str "/") = true
  · rw [if_pos hs]; exact h
  · rw [if_neg hs]
    unfold goHasPre at h ⊢
    exact isPre_append _ _ _ h

/-- Normalizing a route always yields a trailing slash. -/
theorem ensureTrailing_suf (r : Str) : goHasSuf (ensureTrailing r) (str "/") = true := by
  unfold ensureTrailing
  by_cases hs : goHasSuf r (str "/") = true
  · rw [if_pos hs]; exact hs
  · rw [if_neg hs]
    unfold goHasSuf
    rw [List.reverse_append]
    simp [isPre, str]

/-- C9: the derived route key for base path api and upstream github is
exactly /api/github/, the same key results from base path /api/, and
for every base path and name the derived key starts and ends with a
slash. -/
theorem C9_routeKey :
    mcpRoute (str "api") (str "github") = str "/api/github/" ∧
    mcpRoute (str "/api/") (str "github") = str "/api/github/" ∧
    (∀ basePath name : Str,
      goHasPre (mcpRoute basePath name) (str "/") = true ∧
      goHasSuf (mcpRoute basePath name) (str "/") = true) :=
  ⟨by decide, by decide, fun basePath name =>
    ⟨ensureTrailing_pre _ (ensureLeading_pre _), ensureTrailing_suf _⟩⟩

/-- C10: binding is not atomic on failure.  When the tool-catalog drain
fails, RegisterClient reports the failure but the unit stays bound to
the client; a retry of the bind — with any client — fails with the
already-registered error and changes nothing; only UnregisterClient
clears the binding. -/
theorem C10_bindNotAtomic :
    ∀ (ps : ProxyServer) (c c2 : MCPClientModel) (e : Str),
      ps.client = none →
      (drainCatalog (createToolFilter ps.serverConfig.Options) c.toolPages).2.2 = some e →
      (RegisterClient ps c).2 =
        some (str "failed to add client resources: " ++ (str "failed to add tools: " ++ e)) ∧
      (RegisterClient ps c).1.client = some c.id ∧
      (RegisterClient (RegisterClient ps c).1 c2).2 =
        some (str "client already registered for server " ++ ps.name) ∧
      (RegisterClient (RegisterClient ps c).1 c2).1 = (RegisterClient ps c).1 ∧
      (UnregisterClient (RegisterClient ps c).1).1.client = none ∧
      (UnregisterClient (RegisterClient ps c).1).2 = none := by
  intro ps c c2 e h he
  have hns : ¬ ps.client.isSome = true := by simp [h]
  refine ⟨?_, ?_, ?_, ?_, ?_, ?_⟩ <;>
    simp [RegisterClient, addClientResources, UnregisterClient, hns, he]

/-- C10 witness: a fresh unit, a client whose first tool fetch errors:
the bind fails but leaves the unit bound to client 7; rebinding client
8 fails with the already-registered error; unbinding clears the
binding. -/
theorem C10_witness :
    (RegisterClient { name := str "s" } { id := 7, toolPages := [Except.error (str "boom")] }).2 =
      some (str "failed to add client resources: " ++
        (str "failed to add tools: " ++ str "boom")) ∧
    (RegisterClient { name := str "s" }
        { id := 7, toolPages := [Except.error (str "boom")] }).1.client = some 7 ∧
    (RegisterClient
        (RegisterClient { name := str "s" }
          { id := 7, toolPages := [Except.error (str "boom")] }).1 { id := 8 }).2 =
      some (str "client already registered for server " ++ str "s") ∧
    (RegisterClient
        (RegisterClient { name := str "s" }
          { id := 7, toolPages := [Except.error (str "boom")] }).1 { id := 8 }).1 =
      (RegisterClient { name := str "s" }
        { id := 7, toolPages := [Except.error (str "boom")] }).1 ∧
    (UnregisterClient
        (RegisterClient { name := str "s" }
          { id := 7, toolPages := [Except.error (str "boom")] }).1).1.client = none ∧
    (UnregisterClient
        (RegisterClient { name := str "s" }
          { id := 7, toolPages := [Except.error (str "boom")] }).1).2 = none :=
  C10_bindNotAtomic { name := str "s" } { id := 7, toolPages := [Except.error (str "boom")] }
    { id := 8 } (str "boom") rfl rfl

end MCPProxy
